import Mathlib

/-!
Formal model of the search-and-answer service implemented in `main.py`:
the content-verifier predicates, the evidence-collection loop, the
two-pass answer synthesis, the job-lifecycle updates and the status
endpoints.  Python strings are modelled as `String`, Python `int` as
`Int` (or `Nat` for values that are never negative), the job dictionary
as a function `String → Option Job`, and every call to an external
provider (web search, page fetch, language model) as an explicit oracle
argument.
-/

namespace Goleki

/-- ASCII whitespace as recognised by Python `str.strip()`. -/
def pyIsSpace (c : Char) : Bool :=
  c = ' ' || c = '\t' || c = '\n' || c = '\r' || c = '\x0b' || c = '\x0c'

/-- `str.strip()` on a character list. -/
def stripChars (l : List Char) : List Char :=
  ((l.dropWhile pyIsSpace).reverse.dropWhile pyIsSpace).reverse

/-- Python `str.strip()` with no argument (restricted to ASCII whitespace). -/
def pyStrip (s : String) : String := ⟨stripChars s.data⟩

/-- Python `str.lower()` (ASCII case folding). -/
def pyLower (s : String) : String := ⟨s.data.map Char.toLower⟩

/-- Python slicing `s[:n]` (by code point). -/
def pyTake (s : String) (n : Nat) : String := ⟨s.data.take n⟩

/-- Python `str.splitlines()` restricted to the newline separator. -/
def splitOnNl : List Char → List (List Char)
  | [] => [[]]
  | c :: rest =>
    match splitOnNl rest with
    | [] => [[]]
    | x :: xs => if c = '\n' then [] :: x :: xs else (c :: x) :: xs

/-- Python `'\n'.join(lines)`. -/
def joinNl : List (List Char) → List Char
  | [] => []
  | [x] => x
  | x :: y :: rest => x ++ '\n' :: joinNl (y :: rest)

/-- Substring test on character lists, modelling Python `pat in hay`. -/
def containsSub : List Char → List Char → Bool
  | [], pat => pat.isEmpty
  | c :: rest, pat => pat.isPrefixOf (c :: rest) || containsSub rest pat

/-- `containsSub` decides the existence of a substring decomposition. -/
theorem containsSub_iff (hay pat : List Char) :
    containsSub hay pat = true ↔ ∃ pre post, hay = pre ++ pat ++ post := by
  induction hay with
  | nil =>
    simp only [containsSub, List.isEmpty_iff]
    constructor
    · rintro rfl; exact ⟨[], [], rfl⟩
    · rintro ⟨pre, post, h⟩
      rcases List.append_eq_nil.mp h.symm with ⟨h1, h2⟩
      exact (List.append_eq_nil.mp h1).2
  | cons c rest ih =>
    simp only [containsSub, Bool.or_eq_true, List.isPrefixOf_iff_prefix, ih]
    constructor
    · rintro (⟨t, ht⟩ | ⟨pre, post, rfl⟩)
      · exact ⟨[], t, by simpa using ht.symm⟩
      · exact ⟨c :: pre, post, by simp⟩
    · rintro ⟨pre, post, h⟩
      cases pre with
      | nil => exact Or.inl ⟨post, by simpa using h.symm⟩
      | cons p pre =>
        simp only [List.cons_append, List.cons.injEq] at h
        exact Or.inr ⟨pre, post, h.2⟩

/-- Python `pat in hay` on strings. -/
def strContains (hay pat : String) : Bool := containsSub hay.data pat.data

theorem strContains_iff (hay pat : String) :
    strContains hay pat = true ↔ ∃ pre post : String, hay = pre ++ pat ++ post := by
  unfold strContains
  rw [containsSub_iff]
  constructor
  · rintro ⟨pre, post, h⟩
    refine ⟨⟨pre⟩, ⟨post⟩, ?_⟩
    apply String.ext
    simpa [String.data_append] using h
  · rintro ⟨pre, post, rfl⟩
    exact ⟨pre.data, post.data, by simp [String.data_append]⟩

/-! ## Content Verifier (`ContentVerifier` in `main.py`) -/

/-- The deny-list of URL substrings from `is_credible_domain`. -/
def suspicious_patterns : List String :=
  ["free-download", "miracle-solution", "secret-revealed", "one-weird-trick",
   "spam", "scam"]

/-- Characters allowed in a URL scheme. Modelled from CPython
`urllib.parse` (`scheme_chars`). -/
def isSchemeChar (c : Char) : Bool :=
  c.isAlpha || c.isDigit || c = '+' || c = '-' || c = '.'

/-- Modelled from CPython `urllib.parse.urlsplit`: drop a leading
`scheme:` when the text before the first colon starts with a letter and
consists of scheme characters. -/
def stripScheme (url : String) : String :=
  let pre := url.data.takeWhile (fun c => c != ':')
  if pre.length < url.data.length && !pre.isEmpty &&
      (pre.take 1).all Char.isAlpha && pre.all isSchemeChar then
    ⟨url.data.drop (pre.length + 1)⟩
  else url

/-- Modelled from CPython `urllib.parse.urlsplit`: the network location
is the text between a leading `//` and the next `/`, `?` or `#`;
parsing fails (`none`, a `ValueError` in Python) when the netloc has an
unmatched IPv6 bracket.  A URL with no `//` has an empty netloc. -/
def urlparse_netloc (url : String) : Option String :=
  let rest := (stripScheme url).data
  if rest.take 2 = ['/', '/'] then
    let netloc := (rest.drop 2).takeWhile (fun c => c != '/' && c != '?' && c != '#')
    if (netloc.contains '[' && !netloc.contains ']') ||
        (netloc.contains ']' && !netloc.contains '[') then none
    else some ⟨netloc⟩
  else some ""

/-- `ContentVerifier.is_credible_domain`: lowercase the netloc and
reject it when it contains any deny-listed substring; any parse failure
is caught and returns `false`. -/
def is_credible_domain (url : String) : Bool :=
  match urlparse_netloc url with
  | none => false
  | some netloc =>
    let domain := pyLower netloc
    !(suspicious_patterns.any (fun pattern => strContains domain pattern))

/-- The spam-phrase list from `check_content_quality`. -/
def spam_patterns : List String :=
  ["click here", "buy now", "limited time offer", "act now", "100% guaranteed"]

/-- `ContentVerifier.check_content_quality`: reject empty text or text
whose stripped form is shorter than 50 characters, then reject text
whose lowercase form contains any spam phrase. -/
def check_content_quality (text : String) : Bool :=
  if text = "" || (pyStrip text).length < 50 then false
  else !(spam_patterns.any (fun pattern => strContains (pyLower text) pattern))

/-! ## Evidence collection and synthesis (`WebSearcher` in `main.py`) -/

/-- Outcome of one outbound page request (the `httpx` GET together with
the HTML text extraction): either the extracted page text or the
message of the raised exception. -/
inductive FetchOutcome where
  | ok (text : String)
  | err (msg : String)
deriving DecidableEq

/-- The explicit text cleaning in `fetch_webpage_content`: strip each
line and drop blank lines, then rejoin with newlines. -/
def cleanExtract (text : String) : String :=
  ⟨joinNl (((splitOnNl text.data).map stripChars).filter (fun l => !l.isEmpty))⟩

/-- `WebSearcher.fetch_webpage_content`: on success, clean the extracted
text and truncate to 4000 characters; any error or timeout is caught
and turned into the synthetic string `"Error fetching content: <msg>"`. -/
def fetch_webpage_content (fetch : String → FetchOutcome) (url : String) : String :=
  match fetch url with
  | .ok text => pyTake (cleanExtract text) 4000
  | .err msg => "Error fetching content: " ++ msg

/-- One raw search hit (an entry of the `organic` list returned by the
search provider); `link` is `none` when the dictionary has no `link`
key, and `title`/`snippet` default to `""` as in `result.get`. -/
structure SearchHit where
  link : Option String
  title : String
  snippet : String
deriving DecidableEq

/-- An accepted evidence entry of `verified_contents`. -/
structure Content where
  url : String
  title : String
  content : String
deriving DecidableEq

/-- An accepted entry of `verified_sources`. -/
structure Source where
  url : String
  title : String
  snippet : String
deriving DecidableEq

/-- The filtering loop of `WebSearcher.process_query`: iterate over the
hits in provider order, skip hits without a link, with a non-credible
domain, or whose fetched content fails the quality check; append
accepted pairs and stop as soon as the accumulator length reaches
`num_results`. -/
def collect (fetch : String → FetchOutcome) (num_results : Int) :
    List SearchHit → List Content → List Source → List Content × List Source
  | [], acc_c, acc_s => (acc_c, acc_s)
  | r :: rest, acc_c, acc_s =>
    match r.link with
    | none => collect fetch num_results rest acc_c acc_s
    | some link =>
      if is_credible_domain link then
        let content := fetch_webpage_content fetch link
        if check_content_quality content then
          let acc_c' := acc_c ++ [⟨link, r.title, content⟩]
          let acc_s' := acc_s ++ [⟨link, r.title, r.snippet⟩]
          if (acc_c'.length : Int) ≥ num_results then (acc_c', acc_s')
          else collect fetch num_results rest acc_c' acc_s'
        else collect fetch num_results rest acc_c acc_s
      else collect fetch num_results rest acc_c acc_s

/-- The filtering loop started with empty accumulators, as in
`process_query`. -/
def collectPair (fetch : String → FetchOutcome) (num_results : Int)
    (hits : List SearchHit) : List Content × List Source :=
  collect fetch num_results hits [] []

/-- Whether a hit is accepted by the filtering loop. -/
def acceptHit (fetch : String → FetchOutcome) (r : SearchHit) : Bool :=
  match r.link with
  | none => false
  | some link =>
    is_credible_domain link &&
      check_content_quality (fetch_webpage_content fetch link)

/-- The `verified_contents` entry built from an accepted hit. -/
def toContent (fetch : String → FetchOutcome) (r : SearchHit) : Content :=
  ⟨r.link.getD "", r.title, fetch_webpage_content fetch (r.link.getD "")⟩

/-- The `verified_sources` entry built from an accepted hit. -/
def toSource (r : SearchHit) : Source :=
  ⟨r.link.getD "", r.title, r.snippet⟩

/-- One chat-completion request to the language-model provider. -/
structure LlmCall where
  model : String
  system : String
  user : String
  temperatureTenths : Nat
  maxTokens : Nat
deriving DecidableEq

/-- The fixed head of the draft-pass user prompt. -/
def draftHeader (user_query : String) : String :=
  "Based on the following verified web search results, please answer this question: "
    ++ user_query ++
  "\n\n            Instructions:\n                1. Analyze information critically and look for consensus among sources\n                2. If sources disagree, acknowledge the different viewpoints\n                3. If information seems uncertain, express appropriate doubt\n                4. Cite specific sources when making claims\n                5. Don\x27t make definitive claims about controversial topics\n\n            Search Results:\n            "

/-- One numbered evidence block appended to the draft prompt (content
truncated to 1000 characters). -/
def sourceBlock (idx : Nat) (c : Content) : String :=
  "\nSource " ++ toString idx ++ ": " ++ c.title ++ "\nURL: " ++ c.url ++ "\n"
    ++ pyTake c.content 1000 ++ "\n"

/-- The full draft-pass user prompt: header plus the evidence blocks
numbered from 1, in accumulator order. -/
def draftUserPrompt (user_query : String) (contents : List Content) : String :=
  draftHeader user_query ++
    String.join (contents.enum.map (fun p => sourceBlock (p.1 + 1) p.2))

/-- The fixed text of the refinement prompt before the draft answer. -/
def verifyBefore : String :=
  "Please verify and refine this answer, considering:\n            1. Are all claims properly supported by the sources?\n            2. Are there any logical inconsistencies?\n            3. Are uncertainties appropriately acknowledged?\n            4. Is the tone appropriately balanced?\n\n            Original Answer:\n            "

/-- The fixed text of the refinement prompt after the draft answer. -/
def verifyAfter : String :=
  "\n\n            Please provide a refined version that addresses any issues found."

/-- The refinement-pass user prompt: it embeds the draft answer
verbatim. -/
def verificationPrompt (initial_answer : String) : String :=
  verifyBefore ++ initial_answer ++ verifyAfter

/-- The draft-pass system prompt. -/
def sysDraft : String :=
  "You are a helpful assistant that provides accurate, well-sourced answers based on verified web search results. Always maintain a skeptical mindset and acknowledge uncertainties."

/-- The refinement-pass system prompt. -/
def sysVerify : String :=
  "You are a critical fact-checker. Your job is to verify information and ensure accurate, well-balanced responses."

/-- The draft-pass chat-completion request (temperature 0.3, 1500 max
tokens). -/
def draftCall (gmodel user_query : String) (contents : List Content) : LlmCall :=
  ⟨gmodel, sysDraft, draftUserPrompt user_query contents, 3, 1500⟩

/-- The refinement-pass chat-completion request (temperature 0.2, 1024
max tokens). -/
def verifyCall (gmodel initial_answer : String) : LlmCall :=
  ⟨gmodel, sysVerify, verificationPrompt initial_answer, 2, 1024⟩

/-- The canned answer for the zero-hit case. -/
def cannedNoResults : String :=
  "I couldn\x27t find any reliable search results for your query."

/-- The canned answer for the all-hits-filtered case. -/
def cannedUnverified : String :=
  "I found some results but couldn\x27t verify their reliability. Please try rephrasing your query."

/-- The `verification_note` value on the successful path. -/
def verifNote : String :=
  "This response has been verified for accuracy and credibility."

/-- The dictionary returned by a successful `process_query` run. -/
structure PQResult where
  answer : String
  sources : List Source
  note : Option String
deriving DecidableEq

/-- The observable behaviour of one `process_query` run: the search
requests issued, the language-model calls issued in order, and either
the returned result or the message of the propagated exception. -/
structure PQTrace where
  searchCalls : List (String × Int)
  llmCalls : List LlmCall
  outcome : Except String PQResult

/-- `WebSearcher.process_query`: search with `num_results * 2`, return a
canned result on zero hits, run the filtering loop, return a canned
result when nothing was accepted, otherwise run the draft pass and the
refinement pass; any provider error is re-raised (`Except.error`). -/
def process_query (search : String → Int → Except String (List SearchHit))
    (fetch : String → FetchOutcome) (llm : LlmCall → Except String String)
    (gmodel user_query : String) (num_results : Int) : PQTrace :=
  let req := (user_query, num_results * 2)
  match search user_query (num_results * 2) with
  | .error e => ⟨[req], [], .error e⟩
  | .ok search_results =>
    if search_results.isEmpty then
      ⟨[req], [], .ok ⟨cannedNoResults, [], none⟩⟩
    else
      let pair := collect fetch num_results search_results [] []
      if pair.1.isEmpty then
        ⟨[req], [], .ok ⟨cannedUnverified, [], none⟩⟩
      else
        let call1 := draftCall gmodel user_query pair.1
        match llm call1 with
        | .error e => ⟨[req], [call1], .error e⟩
        | .ok initial_answer =>
          let call2 := verifyCall gmodel initial_answer
          match llm call2 with
          | .error e => ⟨[req], [call1, call2], .error e⟩
          | .ok final_answer =>
            ⟨[req], [call1, call2], .ok ⟨final_answer, pair.2, some verifNote⟩⟩

/-! ## Job store and lifecycle (`query_store`, `process_query_background`,
route handlers in `main.py`).  Timestamps (`datetime.utcnow`,
`time.time`) are modelled as opaque `Nat` parameters. -/

/-- One record of `query_store`. -/
structure Job where
  query_id : String
  status : String
  query : String
  created_at : Nat
  last_updated : Nat
  error : Option String
  answer : Option String
  sources : Option (List Source)
  processing_time : Option Nat
deriving DecidableEq

/-- The record written by `create_query` before the worker starts. -/
def initialJob (qid query : String) (t0 : Nat) : Job :=
  { query_id := qid, status := "initiated", query := query,
      created_at := t0, last_updated := t0, error := none, answer := none,
      sources := none, processing_time := none }

/-- The first `query_store[query_id].update` of
`process_query_background`. -/
def updateSearching (t : Nat) (j : Job) : Job :=
  { j with status := "searching", last_updated := t }

/-- The completion `update` of `process_query_background`. -/
def updateCompleted (answer : String) (sources : List Source)
    (ptime t : Nat) (j : Job) : Job :=
  { j with
      status := "completed", answer := some answer,
      sources := some sources, last_updated := t,
      processing_time := some ptime }

/-- The failure `update` of `process_query_background`. -/
def updateFailed (msg : String) (t : Nat) (j : Job) : Job :=
  { j with status := "failed", error := some msg, last_updated := t }

/-- `process_query_background`: mark the job `searching`, run the
pipeline, then write exactly one terminal update — `completed` with
answer, sources and processing time on success, `failed` with the
exception message otherwise.  The whole body is wrapped in
`try`/`except Exception`, so the function returns normally on every
input. -/
def process_query_background (outcome : Except String PQResult)
    (ptime t1 t2 : Nat) (j : Job) : Job :=
  let j1 := updateSearching t1 j
  match outcome with
  | .ok r => updateCompleted r.answer r.sources ptime t2 j1
  | .error e => updateFailed e t2 j1

/-- The in-process job dictionary `query_store`. -/
def Store := String → Option Job

/-- Dictionary assignment `query_store[qid] = j`. -/
def storeInsert (qid : String) (j : Job) (s : Store) : Store :=
  fun k => if k = qid then some j else s k

/-- What `get_query_result` can observe of `task_manager.tasks[qid]`:
present or not, finished or not, and the exception recorded on the
finished task.  Because the embedded `process_query_background` is a
total function — its `try`/`except Exception` swallows every pipeline
error — a finished worker task never carries an exception. -/
structure TaskView where
  done : Bool
  exc : Option String
deriving DecidableEq

/-- The mutation `get_query_result` applies to the stored record: when
the task is present, finished and carries an exception, it overwrites
`status` and `error` in place; otherwise the record is untouched. -/
def readMut (tv : Option TaskView) (j : Job) : Job :=
  match tv with
  | some ⟨true, some e⟩ => { j with status := "failed", error := some e }
  | _ => j

/-- `GET /query/{id}` (`get_query_result`): 404 on an unknown id,
otherwise apply `readMut` to the stored dictionary entry (a mutation of
the store itself, since `result` aliases `query_store[query_id]`) and
return the record. -/
def get_query_result (store : Store) (qid : String) (tv : Option TaskView) :
    Except Unit (Store × Job) :=
  match store qid with
  | none => .error ()
  | some result =>
    let result' := readMut tv result
    .ok (storeInsert qid result' store, result')

/-- `POST /query` (`create_query`): write an `initiated` record, then
`await task_manager.add_task(...)` — which awaits the worker coroutine
to completion before returning — and finally return
`QueryResponse(**query_store[query_id])`, i.e. the post-worker
snapshot. -/
def create_query (search : String → Int → Except String (List SearchHit))
    (fetch : String → FetchOutcome) (llm : LlmCall → Except String String)
    (gmodel qid query : String) (num_results : Int)
    (t0 ptime t1 t2 : Nat) (store : Store) : Store × Job :=
  let j0 := initialJob qid query t0
  let store1 := storeInsert qid j0 store
  let tr := process_query search fetch llm gmodel query num_results
  let j1 := process_query_background tr.outcome ptime t1 t2 j0
  let store2 := storeInsert qid j1 store1
  (store2, j1)

/-! ## `GET /status` (`get_system_status`).  The dictionary
comprehension keyed by `set(q["status"] ...)` is modelled as the
`Finset` of statuses present plus the per-status count; `jobs` is the
list `query_store.values()`. -/

/-- The key set of `queries_by_status`. -/
def statusKeys (jobs : List Job) : Finset String :=
  (jobs.map Job.status).toFinset

/-- The value of `queries_by_status` at one status:
`len([q for q in query_store.values() if q["status"] == status])`. -/
def statusCount (jobs : List Job) (s : String) : Nat :=
  (jobs.filter (fun q => q.status = s)).length

/-- The body of the `/status` response. -/
structure SystemStatus where
  active_tasks : Nat
  total_queries : Nat
  byStatusKeys : Finset String
  byStatusCount : String → Nat

/-- `get_system_status`. -/
def get_system_status (jobs : List Job) (active : Nat) : SystemStatus :=
  { active_tasks := active, total_queries := jobs.length,
      byStatusKeys := statusKeys jobs, byStatusCount := statusCount jobs }

/-! ## Event-level view of one job's store entry.

The three `update` calls of `process_query_background` and the
conditional mutation inside `get_query_result` are the only writes to a
job record after creation; they are reified as events so that the
lifecycle invariants can be stated over arbitrary interleavings of the
worker's writes with concurrent status reads. -/

/-- One write (or read) touching a single job record. -/
inductive Ev where
  | searching (t : Nat)
  | completed (answer : String) (sources : List Source) (ptime t : Nat)
  | failed (msg : String) (t : Nat)
  | read (tv : Option TaskView)
deriving DecidableEq

/-- Effect of one event on the record. -/
def applyEv (j : Job) : Ev → Job
  | .searching t => updateSearching t j
  | .completed a s p t => updateCompleted a s p t j
  | .failed m t => updateFailed m t j
  | .read tv => readMut tv j

/-- A read whose task view is one the running system can produce: the
task is absent, or present with no recorded exception (the embedded
worker function returns normally on every input, so its task never
carries an exception). -/
def validReadEv : Ev → Bool
  | .read none => true
  | .read (some ⟨_, none⟩) => true
  | _ => false

/-- Whether an event writes a terminal status. -/
def terminalEv : Ev → Bool
  | .completed _ _ _ _ => true
  | .failed _ _ => true
  | _ => false

/-- The terminal event the worker emits for a pipeline outcome. -/
def termEv (outcome : Except String PQResult) (ptime t : Nat) : Ev :=
  match outcome with
  | .ok r => .completed r.answer r.sources ptime t
  | .error e => .failed e t

/-- A status value is terminal. -/
def terminalStatus (s : String) : Bool :=
  s = "completed" || s = "failed"

/-! ## Closed form of the filtering loop -/

/-- How many further hits the loop will accept when `used` items are
already accumulated: `max (n - used) 1` - at least one, because the
length test runs only after an append. -/
def remTake (n : Int) (used : Nat) : Nat :=
  if n ≤ (used : Int) + 1 then 1 else (n - used).toNat

theorem remTake_eq_one {n : Int} {used : Nat} (h : n ≤ (used : Int) + 1) :
    remTake n used = 1 := by
  unfold remTake
  rw [if_pos h]

theorem remTake_succ {n : Int} {used : Nat} (h : (used : Int) + 1 < n) :
    remTake n used = remTake n (used + 1) + 1 := by
  unfold remTake
  split <;> split <;> omega

/-- With the empty accumulator and a positive target the loop will take
exactly `n` accepted hits. -/
theorem remTake_zero_of_pos {n : Int} (h : 1 ≤ n) : remTake n 0 = n.toNat := by
  unfold remTake
  split <;> omega

/-- The filtering loop keeps, after the accumulators, exactly the first
`remTake n |acc|` accepted hits, in provider order. -/
theorem collect_go_eq (fetch : String → FetchOutcome) (n : Int) :
    ∀ (hits : List SearchHit) (acc_c : List Content) (acc_s : List Source),
      acc_c.length = acc_s.length →
      collect fetch n hits acc_c acc_s =
        (acc_c ++ ((hits.filter (acceptHit fetch)).take
            (remTake n acc_c.length)).map (toContent fetch),
         acc_s ++ ((hits.filter (acceptHit fetch)).take
            (remTake n acc_c.length)).map toSource) := by
  intro hits
  induction hits with
  | nil => intro acc_c acc_s h; simp [collect]
  | cons r rest ih =>
    intro acc_c acc_s h
    obtain ⟨lnk, rtitle, rsnip⟩ := r
    cases lnk with
    | none =>
      have ha : acceptHit fetch ⟨none, rtitle, rsnip⟩ = false := rfl
      have key : collect fetch n (⟨none, rtitle, rsnip⟩ :: rest) acc_c acc_s =
          collect fetch n rest acc_c acc_s := rfl
      rw [key, ih acc_c acc_s h]
      simp [List.filter_cons, ha]
    | some link =>
      have key : collect fetch n (⟨some link, rtitle, rsnip⟩ :: rest) acc_c acc_s =
          (if is_credible_domain link then
            if check_content_quality (fetch_webpage_content fetch link) then
              if ((acc_c ++
                  [(⟨link, rtitle, fetch_webpage_content fetch link⟩ : Content)]).length : Int)
                  ≥ n then
                (acc_c ++ [⟨link, rtitle, fetch_webpage_content fetch link⟩],
                 acc_s ++ [(⟨link, rtitle, rsnip⟩ : Source)])
              else
                collect fetch n rest
                  (acc_c ++ [⟨link, rtitle, fetch_webpage_content fetch link⟩])
                  (acc_s ++ [⟨link, rtitle, rsnip⟩])
            else collect fetch n rest acc_c acc_s
          else collect fetch n rest acc_c acc_s) := rfl
      rw [key]
      by_cases hcred : is_credible_domain link
      · rw [if_pos hcred]
        by_cases hq : check_content_quality (fetch_webpage_content fetch link)
        · rw [if_pos hq]
          have ha : acceptHit fetch ⟨some link, rtitle, rsnip⟩ = true := by
            simp [acceptHit, hcred, hq]
          by_cases hstop : ((acc_c ++
              [(⟨link, rtitle, fetch_webpage_content fetch link⟩ : Content)]).length : Int)
              ≥ n
          · rw [if_pos hstop]
            have h1 : remTake n acc_c.length = 1 := by
              apply remTake_eq_one
              simpa using hstop
            rw [h1]
            simp [List.filter_cons, ha, toContent, toSource]
          · rw [if_neg hstop]
            rw [ih
                  (acc_c ++ [(⟨link, rtitle, fetch_webpage_content fetch link⟩ : Content)])
                  (acc_s ++ [(⟨link, rtitle, rsnip⟩ : Source)]) (by simp [h])]
            have hlen : ((acc_c.length : Int)) + 1 < n := by
              simp at hstop; omega
            have hsucc : remTake n acc_c.length = remTake n (acc_c.length + 1) + 1 :=
              remTake_succ hlen
            rw [hsucc]
            simp [List.filter_cons, ha, toContent, toSource, List.take_succ_cons]
        · rw [if_neg hq]
          have ha : acceptHit fetch ⟨some link, rtitle, rsnip⟩ = false := by
            simp [acceptHit, hcred, hq]
          rw [ih acc_c acc_s h]
          simp [List.filter_cons, ha]
      · rw [if_neg hcred]
        have ha : acceptHit fetch ⟨some link, rtitle, rsnip⟩ = false := by
          simp [acceptHit, hcred]
        rw [ih acc_c acc_s h]
        simp [List.filter_cons, ha]

/-- Closed form of `collectPair`: the first `remTake n 0` accepted hits
in provider order. -/
theorem collectPair_eq (fetch : String → FetchOutcome) (n : Int)
    (hits : List SearchHit) :
    collectPair fetch n hits =
      (((hits.filter (acceptHit fetch)).take (remTake n 0)).map (toContent fetch),
       ((hits.filter (acceptHit fetch)).take (remTake n 0)).map toSource) := by
  have h := collect_go_eq fetch n hits [] [] rfl
  simpa [collectPair] using h

/-! ## Claim C5 -/

/-- C5: for every URL whose parsed host contains a deny-listed
substring, `is_credible_domain` returns `false`; for every parseable
URL whose host contains none, it returns `true`; and for every
unparseable URL it returns `false` (fails closed). -/
theorem credible_domain_spec (url : String) :
    (∀ h p pre post, urlparse_netloc url = some h → p ∈ suspicious_patterns →
        pyLower h = pre ++ p ++ post → is_credible_domain url = false)
    ∧ (∀ h, urlparse_netloc url = some h →
        (∀ p ∈ suspicious_patterns, ∀ pre post, pyLower h ≠ pre ++ p ++ post) →
        is_credible_domain url = true)
    ∧ (urlparse_netloc url = none → is_credible_domain url = false) := by
  refine ⟨?_, ?_, ?_⟩
  · intro h p pre post hh hp hdecomp
    have hc : strContains (pyLower h) p = true :=
      (strContains_iff _ _).mpr ⟨pre, post, hdecomp⟩
    have hany : suspicious_patterns.any (fun pattern => strContains (pyLower h) pattern) = true :=
      List.any_eq_true.mpr ⟨p, hp, hc⟩
    unfold is_credible_domain
    rw [hh]
    simp [hany]
  · intro h hh hnone
    have hall : ∀ p ∈ suspicious_patterns, ¬ strContains (pyLower h) p = true := by
      intro p hp hcon
      obtain ⟨pre, post, heq⟩ := (strContains_iff _ _).mp hcon
      exact hnone p hp pre post heq
    have hany : suspicious_patterns.any (fun pattern => strContains (pyLower h) pattern) = false := by
      rw [List.any_eq_false]
      exact hall
    unfold is_credible_domain
    rw [hh]
    simp [hany]
  · intro hh
    unfold is_credible_domain
    rw [hh]

/-- Witness for C5: a deny-listed host is rejected, a clean host is
accepted, and an unparseable URL (unmatched IPv6 bracket) is
rejected. -/
theorem credible_domain_spec_witness :
    is_credible_domain "http://free-download.example.com/page" = false
    ∧ is_credible_domain "https://en.wikipedia.org/wiki/France" = true
    ∧ is_credible_domain "http://[::1" = false := by
  refine ⟨?_, ?_, ?_⟩
  · exact (credible_domain_spec _).1 "free-download.example.com" "free-download"
      "" ".example.com" (by decide) (by decide) (by decide)
  · refine (credible_domain_spec _).2.1 "en.wikipedia.org" (by decide) ?_
    intro p hp pre post heq
    have hc : strContains (pyLower "en.wikipedia.org") p = true :=
      (strContains_iff _ _).mpr ⟨pre, post, heq⟩
    have hf : ∀ p ∈ suspicious_patterns,
        strContains (pyLower "en.wikipedia.org") p = false := by decide
    rw [hf p hp] at hc
    exact Bool.false_ne_true hc
  · exact (credible_domain_spec _).2.2 (by decide)

/-! ## Claim C6 -/

/-- C6: text empty or shorter than 50 characters after stripping is
rejected; text whose lowercase form contains a spam phrase is rejected;
text of stripped length at least 50 with no spam phrase is accepted. -/
theorem content_quality_spec (text : String) :
    ((pyStrip text).length < 50 → check_content_quality text = false)
    ∧ (∀ p pre post, p ∈ spam_patterns → pyLower text = pre ++ p ++ post →
        check_content_quality text = false)
    ∧ (50 ≤ (pyStrip text).length →
        (∀ p ∈ spam_patterns, ∀ pre post, pyLower text ≠ pre ++ p ++ post) →
        check_content_quality text = true) := by
  refine ⟨?_, ?_, ?_⟩
  · intro hlen
    simp [check_content_quality, hlen]
  · intro p pre post hp hdecomp
    have hc : strContains (pyLower text) p = true :=
      (strContains_iff _ _).mpr ⟨pre, post, hdecomp⟩
    have hany : spam_patterns.any (fun pattern => strContains (pyLower text) pattern) = true :=
      List.any_eq_true.mpr ⟨p, hp, hc⟩
    unfold check_content_quality
    split
    · rfl
    · simp [hany]
  · intro hlen hnone
    have hall : ∀ p ∈ spam_patterns, ¬ strContains (pyLower text) p = true := by
      intro p hp hcon
      obtain ⟨pre, post, heq⟩ := (strContains_iff _ _).mp hcon
      exact hnone p hp pre post heq
    have hany : spam_patterns.any (fun pattern => strContains (pyLower text) pattern) = false := by
      rw [List.any_eq_false]
      exact hall
    unfold check_content_quality
    split
    · rename_i hcond
      simp only [Bool.or_eq_true, decide_eq_true_eq] at hcond
      cases hcond with
      | inl hempty =>
        subst hempty
        have h0 : (pyStrip "").length = 0 := rfl
        omega
      | inr hshort => omega
    · simp [hany]

/-- Witness for C6: short text is rejected, a spam phrase (in mixed
case) is rejected even in long text, and long clean text is
accepted. -/
theorem content_quality_spec_witness :
    check_content_quality "too short" = false
    ∧ check_content_quality
        "This message is certainly long enough to pass the length check: BUY NOW while supplies last."
        = false
    ∧ check_content_quality
        "The city of Paris has been the capital of France since the tenth century, with brief interruptions."
        = true := by
  refine ⟨?_, ?_, ?_⟩
  · exact (content_quality_spec _).1 (by decide)
  · exact (content_quality_spec _).2.1 "buy now"
      "this message is certainly long enough to pass the length check: "
      " while supplies last." (by decide) (by decide)
  · refine (content_quality_spec _).2.2 (by decide) ?_
    intro p hp pre post heq
    have hc : strContains (pyLower
        "The city of Paris has been the capital of France since the tenth century, with brief interruptions.")
        p = true :=
      (strContains_iff _ _).mpr ⟨pre, post, heq⟩
    have hf : ∀ p ∈ spam_patterns, strContains (pyLower
        "The city of Paris has been the capital of France since the tenth century, with brief interruptions.")
        p = false := by decide
    rw [hf p hp] at hc
    exact Bool.false_ne_true hc

/-! ## Claim C2 -/

/-- Counterexample to C2: a fetch that times out with a long error
message yields a synthetic content value that PASSES the quality check
(it is over 50 characters and contains no spam phrase), and it
contributes an accepted evidence item whose content is the error
string. -/
theorem fetch_error_quality_counterexample :
    check_content_quality
      (fetch_webpage_content
        (fun _ => FetchOutcome.err
          "The read operation timed out while awaiting the response from the server")
        "https://example.com/article") = true
    ∧ (collectPair
        (fun _ => FetchOutcome.err
          "The read operation timed out while awaiting the response from the server")
        3 [⟨some "https://example.com/article", "Example", "snip"⟩]).1 =
      [⟨"https://example.com/article", "Example",
        "Error fetching content: The read operation timed out while awaiting the response from the server"⟩] := by
  constructor
  · decide
  · decide

/-- C2 amended: an errored or timed-out fetch is caught inside
`fetch_webpage_content` and yields the synthetic value
`"Error fetching content: <msg>"` instead of an exception, so it never
aborts the collection of the remaining hits; the synthetic value fails
the quality check whenever it is shorter than 50 characters after
stripping (in particular for short error messages), and a hit whose
synthetic content fails the check is skipped while collection
continues. -/
theorem fetch_error_amended
    (fetch : String → FetchOutcome) (url msg : String)
    (rest : List SearchHit) (n : Int)
    (acc_c : List Content) (acc_s : List Source)
    (herr : fetch url = FetchOutcome.err msg) :
    fetch_webpage_content fetch url = "Error fetching content: " ++ msg
    ∧ ((pyStrip ("Error fetching content: " ++ msg)).length < 50 →
        check_content_quality ("Error fetching content: " ++ msg) = false)
    ∧ (∀ rtitle rsnip,
        check_content_quality ("Error fetching content: " ++ msg) = false →
        collect fetch n (⟨some url, rtitle, rsnip⟩ :: rest) acc_c acc_s =
          collect fetch n rest acc_c acc_s) := by
  have hfc : fetch_webpage_content fetch url = "Error fetching content: " ++ msg := by
    unfold fetch_webpage_content
    rw [herr]
  refine ⟨hfc, ?_, ?_⟩
  · intro hlen
    simp [check_content_quality, hlen]
  · intro rtitle rsnip hq
    have key : collect fetch n (⟨some url, rtitle, rsnip⟩ :: rest) acc_c acc_s =
        (if is_credible_domain url then
          if check_content_quality (fetch_webpage_content fetch url) then
            if ((acc_c ++
                [(⟨url, rtitle, fetch_webpage_content fetch url⟩ : Content)]).length : Int)
                ≥ n then
              (acc_c ++ [⟨url, rtitle, fetch_webpage_content fetch url⟩],
               acc_s ++ [(⟨url, rtitle, rsnip⟩ : Source)])
            else
              collect fetch n rest
                (acc_c ++ [⟨url, rtitle, fetch_webpage_content fetch url⟩])
                (acc_s ++ [⟨url, rtitle, rsnip⟩])
          else collect fetch n rest acc_c acc_s
        else collect fetch n rest acc_c acc_s) := rfl
    rw [key]
    by_cases hcred : is_credible_domain url
    · rw [if_pos hcred, hfc, hq]
      simp
    · rw [if_neg hcred]

/-- Witness for C2's amended claim: a short error message is converted
into a synthetic value, rejected by the quality check, and the hit is
skipped without aborting the loop. -/
theorem fetch_error_amended_witness :
    fetch_webpage_content (fun _ => FetchOutcome.err "timeout")
        "https://example.com/a" = "Error fetching content: timeout"
    ∧ check_content_quality ("Error fetching content: " ++ "timeout") = false
    ∧ collect (fun _ => FetchOutcome.err "timeout") 3
        [⟨some "https://example.com/a", "T", "S"⟩] [] [] = ([], []) := by
  have h := fetch_error_amended (fun _ => FetchOutcome.err "timeout")
    "https://example.com/a" "timeout" [] 3 [] [] rfl
  have hq : check_content_quality ("Error fetching content: " ++ "timeout") = false :=
    h.2.1 (by decide)
  exact ⟨h.1, hq, (h.2.2 "T" "S" hq).trans rfl⟩

/-! ## Claim C4 -/

/-- Counterexample to C4: with `targetCount = 0` the loop still accepts
one item (the length check runs only after an append), so "returns at
most `targetCount` accepted items" fails. -/
theorem collect_overshoot_counterexample :
    ¬ ((collectPair
        (fun _ => FetchOutcome.ok
          "A sufficiently long and perfectly ordinary page text about the city of Paris and its history.")
        0 [⟨some "https://example.com/paris", "Paris", "about Paris"⟩]).1.length ≤ 0) := by
  decide

/-- C4 amended: the collector always requests `2 × targetCount` raw
hits; the accepted sources are exactly the first `remTake targetCount 0`
accepted hits in provider encounter order (a sublist of the hit list);
and for every `targetCount ≥ 1` it returns at most `targetCount` items,
stopping once `targetCount` accepted items are reached.  (For
`targetCount ≤ 0` the loop can return one item, as the counterexample
shows.) -/
theorem evidence_collector_amended
    (search : String → Int → Except String (List SearchHit))
    (fetch : String → FetchOutcome) (llm : LlmCall → Except String String)
    (gmodel q : String) (n : Int) (hits : List SearchHit) :
    (process_query search fetch llm gmodel q n).searchCalls = [(q, n * 2)]
    ∧ (collectPair fetch n hits).2 =
        ((hits.filter (acceptHit fetch)).take (remTake n 0)).map toSource
    ∧ List.Sublist ((hits.filter (acceptHit fetch)).take (remTake n 0)) hits
    ∧ (1 ≤ n → (collectPair fetch n hits).2 =
        ((hits.filter (acceptHit fetch)).take n.toNat).map toSource)
    ∧ (1 ≤ n → ((collectPair fetch n hits).2.length : Int) ≤ n) := by
  refine ⟨?_, ?_, ?_, ?_, ?_⟩
  · unfold process_query
    rcases h : search q (n * 2) with e | srs
    · rfl
    · by_cases hemp : srs.isEmpty
      · simp [hemp]
      · simp only [hemp, Bool.false_eq_true, if_false]
        split
        · rfl
        · split
          · rfl
          · split <;> rfl
  · exact congrArg Prod.snd (collectPair_eq fetch n hits)
  · exact (List.take_sublist _ _).trans (List.filter_sublist _)
  · intro hpos
    simp only [collectPair_eq fetch n hits, remTake_zero_of_pos hpos]
  · intro hpos
    simp only [collectPair_eq fetch n hits, remTake_zero_of_pos hpos,
      List.length_map]
    have hle := List.length_take_le n.toNat (hits.filter (acceptHit fetch))
    omega

/-- Witness for C4's amended claim, at `targetCount = 3` with six
identical accepted hits: exactly three sources are returned, within the
bound. -/
theorem evidence_collector_amended_witness :
    (process_query (fun _ _ => Except.ok []) (fun _ => FetchOutcome.ok
        "A sufficiently long and perfectly ordinary page text about the city of Paris and its history.")
      (fun _ => Except.error "no model") "m" "capital of France" 3).searchCalls
      = [("capital of France", 6)]
    ∧ ((collectPair (fun _ => FetchOutcome.ok
        "A sufficiently long and perfectly ordinary page text about the city of Paris and its history.")
        3 (List.replicate 6 ⟨some "https://example.com/paris", "Paris", "about"⟩)).2.length : Int)
      ≤ 3 := by
  have h := evidence_collector_amended (fun _ _ => Except.ok [])
    (fun _ => FetchOutcome.ok
      "A sufficiently long and perfectly ordinary page text about the city of Paris and its history.")
    (fun _ => Except.error "no model") "m" "capital of France" 3
    (List.replicate 6 ⟨some "https://example.com/paris", "Paris", "about"⟩)
  exact ⟨h.1, h.2.2.2.2 (by decide)⟩

/-! ## Claim C7 -/

/-- C7: when evidence collection accepts zero items (zero raw hits or
everything filtered out), the pipeline returns a canned answer with
empty sources, and the worker marks the job `completed` — never
`failed`. -/
theorem no_evidence_completes
    (search : String → Int → Except String (List SearchHit))
    (fetch : String → FetchOutcome) (llm : LlmCall → Except String String)
    (gmodel qid q : String) (n : Int) (hits : List SearchHit)
    (t0 ptime t1 t2 : Nat)
    (hs : search q (n * 2) = Except.ok hits)
    (hz : (collectPair fetch n hits).1 = []) :
    (∃ ans, (process_query search fetch llm gmodel q n).outcome =
        Except.ok ⟨ans, [], none⟩
      ∧ (ans = cannedNoResults ∨ ans = cannedUnverified))
    ∧ (process_query_background (process_query search fetch llm gmodel q n).outcome
        ptime t1 t2 (initialJob qid q t0)).status = "completed"
    ∧ (process_query_background (process_query search fetch llm gmodel q n).outcome
        ptime t1 t2 (initialJob qid q t0)).sources = some []
    ∧ (process_query_background (process_query search fetch llm gmodel q n).outcome
        ptime t1 t2 (initialJob qid q t0)).error = none
    ∧ (process_query_background (process_query search fetch llm gmodel q n).outcome
        ptime t1 t2 (initialJob qid q t0)).status ≠ "failed" := by
  unfold collectPair at hz
  have houtcome : (process_query search fetch llm gmodel q n).outcome =
        Except.ok ⟨cannedNoResults, [], none⟩
      ∨ (process_query search fetch llm gmodel q n).outcome =
        Except.ok ⟨cannedUnverified, [], none⟩ := by
    unfold process_query
    rw [hs]
    by_cases hemp : hits.isEmpty
    · left
      simp [hemp]
    · right
      have hz' : (collect fetch n hits [] []).1.isEmpty = true := by
        rw [hz]
        rfl
      simp [hemp, hz']
  rcases houtcome with h | h <;> rw [h]
  · have hst : (process_query_background
        (Except.ok ⟨cannedNoResults, [], none⟩) ptime t1 t2
        (initialJob qid q t0)).status = "completed" := rfl
    exact ⟨⟨cannedNoResults, rfl, Or.inl rfl⟩, hst, rfl, rfl,
      fun hcon => absurd (hst.symm.trans hcon) (by decide)⟩
  · have hst : (process_query_background
        (Except.ok ⟨cannedUnverified, [], none⟩) ptime t1 t2
        (initialJob qid q t0)).status = "completed" := rfl
    exact ⟨⟨cannedUnverified, rfl, Or.inr rfl⟩, hst, rfl, rfl,
      fun hcon => absurd (hst.symm.trans hcon) (by decide)⟩

/-- Witness for C7: the search provider returns zero hits, the job
completes with empty sources and the canned answer. -/
theorem no_evidence_completes_witness :
    (process_query_background
        (process_query (fun _ _ => Except.ok []) (fun _ => FetchOutcome.err "x")
          (fun _ => Except.error "y") "m" "xyzzy123nonsense" 3).outcome
        5 1 2 (initialJob "id1" "xyzzy123nonsense" 0)).status = "completed"
    ∧ (process_query_background
        (process_query (fun _ _ => Except.ok []) (fun _ => FetchOutcome.err "x")
          (fun _ => Except.error "y") "m" "xyzzy123nonsense" 3).outcome
        5 1 2 (initialJob "id1" "xyzzy123nonsense" 0)).sources = some [] := by
  have h := no_evidence_completes (fun _ _ => Except.ok [])
    (fun _ => FetchOutcome.err "x") (fun _ => Except.error "y")
    "m" "id1" "xyzzy123nonsense" 3 [] 0 5 1 2 rfl rfl
  exact ⟨h.2.1, h.2.2.1⟩

/-! ## Claim C8 -/

/-- C8: a search-provider failure, or a language-model failure at
either the draft pass or the refinement pass, propagates out of the
pipeline, and the worker then marks the job `failed` with the
propagated (non-empty) message while `answer`, `sources` and
`processing_time` stay unset — no partial answer (in particular no
draft answer from a failed refinement pass) is ever recorded. -/
theorem failure_routes_to_failed
    (search : String → Int → Except String (List SearchHit))
    (fetch : String → FetchOutcome) (llm : LlmCall → Except String String)
    (gmodel qid q : String) (n : Int) (e : String) (t0 ptime t1 t2 : Nat)
    (he : e ≠ "") :
    (search q (n * 2) = Except.error e →
      (process_query search fetch llm gmodel q n).outcome = Except.error e)
    ∧ (∀ hits, search q (n * 2) = Except.ok hits →
        (collectPair fetch n hits).1 ≠ [] →
        llm (draftCall gmodel q (collectPair fetch n hits).1) = Except.error e →
        (process_query search fetch llm gmodel q n).outcome = Except.error e)
    ∧ (∀ hits a, search q (n * 2) = Except.ok hits →
        (collectPair fetch n hits).1 ≠ [] →
        llm (draftCall gmodel q (collectPair fetch n hits).1) = Except.ok a →
        llm (verifyCall gmodel a) = Except.error e →
        (process_query search fetch llm gmodel q n).outcome = Except.error e)
    ∧ ((process_query search fetch llm gmodel q n).outcome = Except.error e →
        (process_query_background (process_query search fetch llm gmodel q n).outcome
            ptime t1 t2 (initialJob qid q t0)).status = "failed"
        ∧ (process_query_background (process_query search fetch llm gmodel q n).outcome
            ptime t1 t2 (initialJob qid q t0)).error = some e
        ∧ (process_query_background (process_query search fetch llm gmodel q n).outcome
            ptime t1 t2 (initialJob qid q t0)).error ≠ some ""
        ∧ (process_query_background (process_query search fetch llm gmodel q n).outcome
            ptime t1 t2 (initialJob qid q t0)).answer = none
        ∧ (process_query_background (process_query search fetch llm gmodel q n).outcome
            ptime t1 t2 (initialJob qid q t0)).sources = none
        ∧ (process_query_background (process_query search fetch llm gmodel q n).outcome
            ptime t1 t2 (initialJob qid q t0)).processing_time = none) := by
  refine ⟨?_, ?_, ?_, ?_⟩
  · intro hserr
    unfold process_query
    rw [hserr]
  · intro hits hs hcol hllm
    unfold collectPair at hcol hllm
    cases hits with
    | nil => exact absurd rfl hcol
    | cons r rs =>
      unfold process_query
      rw [hs]
      have hpe : ¬ ((collect fetch n (r :: rs) [] []).1.isEmpty = true) := by
        intro hh
        exact hcol (List.isEmpty_iff.mp hh)
      simp only [Bool.not_eq_true] at hpe
      simp [hpe, hllm]
  · intro hits a hs hcol hdraft hverify
    unfold collectPair at hcol hdraft
    cases hits with
    | nil => exact absurd rfl hcol
    | cons r rs =>
      unfold process_query
      rw [hs]
      have hpe : ¬ ((collect fetch n (r :: rs) [] []).1.isEmpty = true) := by
        intro hh
        exact hcol (List.isEmpty_iff.mp hh)
      simp only [Bool.not_eq_true] at hpe
      simp [hpe, hdraft, hverify]
  · intro houterr
    rw [houterr]
    have herr_eq : (process_query_background (Except.error e) ptime t1 t2
        (initialJob qid q t0)).error = some e := rfl
    refine ⟨rfl, rfl, ?_, rfl, rfl, rfl⟩
    rw [herr_eq]
    intro hcon
    exact he (Option.some.inj hcon)

/-- Witness for C8: first, the search provider raises and the job is
`failed` with the provider message and no answer fields; second, the
refinement pass times out after a successful draft pass, the pipeline
propagates the timeout, and the job is `failed` with `answer` unset —
the draft answer is discarded, not recorded. -/
theorem failure_routes_to_failed_witness :
    (process_query_background
        (process_query (fun _ _ => Except.error "connection refused")
          (fun _ => FetchOutcome.err "x") (fun _ => Except.error "y")
          "m" "capital of France" 3).outcome
        5 1 2 (initialJob "id1" "capital of France" 0)).status = "failed"
    ∧ (process_query_background
        (process_query (fun _ _ => Except.error "connection refused")
          (fun _ => FetchOutcome.err "x") (fun _ => Except.error "y")
          "m" "capital of France" 3).outcome
        5 1 2 (initialJob "id1" "capital of France" 0)).error
        = some "connection refused"
    ∧ (process_query_background
        (process_query (fun _ _ => Except.error "connection refused")
          (fun _ => FetchOutcome.err "x") (fun _ => Except.error "y")
          "m" "capital of France" 3).outcome
        5 1 2 (initialJob "id1" "capital of France" 0)).answer = none
    ∧ (process_query_background
        (process_query (fun _ _ => Except.error "connection refused")
          (fun _ => FetchOutcome.err "x") (fun _ => Except.error "y")
          "m" "capital of France" 3).outcome
        5 1 2 (initialJob "id1" "capital of France" 0)).sources = none
    ∧ (process_query_background
        (process_query (fun _ _ => Except.error "connection refused")
          (fun _ => FetchOutcome.err "x") (fun _ => Except.error "y")
          "m" "capital of France" 3).outcome
        5 1 2 (initialJob "id1" "capital of France" 0)).processing_time = none
    ∧ (process_query
        (fun _ _ => Except.ok [⟨some "https://example.com/paris", "Paris", "about"⟩])
        (fun _ => FetchOutcome.ok
          "A sufficiently long and perfectly ordinary page text about the city of Paris and its history.")
        (fun c => if c.system = sysVerify then Except.error "model timeout"
          else Except.ok "draft answer")
        "m" "capital of France" 3).outcome = Except.error "model timeout"
    ∧ (process_query_background
        (process_query
          (fun _ _ => Except.ok [⟨some "https://example.com/paris", "Paris", "about"⟩])
          (fun _ => FetchOutcome.ok
            "A sufficiently long and perfectly ordinary page text about the city of Paris and its history.")
          (fun c => if c.system = sysVerify then Except.error "model timeout"
            else Except.ok "draft answer")
          "m" "capital of France" 3).outcome
        5 1 2 (initialJob "id2" "capital of France" 0)).status = "failed"
    ∧ (process_query_background
        (process_query
          (fun _ _ => Except.ok [⟨some "https://example.com/paris", "Paris", "about"⟩])
          (fun _ => FetchOutcome.ok
            "A sufficiently long and perfectly ordinary page text about the city of Paris and its history.")
          (fun c => if c.system = sysVerify then Except.error "model timeout"
            else Except.ok "draft answer")
          "m" "capital of France" 3).outcome
        5 1 2 (initialJob "id2" "capital of France" 0)).answer = none := by
  have h := failure_routes_to_failed (fun _ _ => Except.error "connection refused")
    (fun _ => FetchOutcome.err "x") (fun _ => Except.error "y")
    "m" "id1" "capital of France" 3 "connection refused" 0 5 1 2 (by decide)
  have h3 := h.2.2.2 (h.1 rfl)
  have hv := failure_routes_to_failed
    (fun _ _ => Except.ok [⟨some "https://example.com/paris", "Paris", "about"⟩])
    (fun _ => FetchOutcome.ok
      "A sufficiently long and perfectly ordinary page text about the city of Paris and its history.")
    (fun c => if c.system = sysVerify then Except.error "model timeout"
      else Except.ok "draft answer")
    "m" "id2" "capital of France" 3 "model timeout" 0 5 1 2 (by decide)
  have hvo := hv.2.2.1 [⟨some "https://example.com/paris", "Paris", "about"⟩]
    "draft answer" rfl (by decide) rfl rfl
  have hv3 := hv.2.2.2 hvo
  exact ⟨h3.1, h3.2.1, h3.2.2.2.1, h3.2.2.2.2.1, h3.2.2.2.2.2,
    hvo, hv3.1, hv3.2.2.2.1⟩

/-! ## Claim C9 -/

/-- C9: on non-empty accepted evidence with both model calls
succeeding, exactly two language-model calls are made, in order draft
then refinement; the refinement prompt embeds the draft output
verbatim; and the refinement output together with the accepted sources
is the returned result. -/
theorem two_pass_synthesis
    (search : String → Int → Except String (List SearchHit))
    (fetch : String → FetchOutcome) (llm : LlmCall → Except String String)
    (gmodel q : String) (n : Int) (hits : List SearchHit) (a b : String)
    (hs : search q (n * 2) = Except.ok hits)
    (hne : (collectPair fetch n hits).1 ≠ [])
    (h1 : llm (draftCall gmodel q (collectPair fetch n hits).1) = Except.ok a)
    (h2 : llm (verifyCall gmodel a) = Except.ok b) :
    (process_query search fetch llm gmodel q n).llmCalls =
      [draftCall gmodel q (collectPair fetch n hits).1, verifyCall gmodel a]
    ∧ (process_query search fetch llm gmodel q n).llmCalls.length = 2
    ∧ (∃ pre post, (verifyCall gmodel a).user = pre ++ a ++ post)
    ∧ (process_query search fetch llm gmodel q n).outcome =
        Except.ok ⟨b, (collectPair fetch n hits).2, some verifNote⟩ := by
  unfold collectPair at hne h1 ⊢
  have hcalls : process_query search fetch llm gmodel q n =
      ⟨[(q, n * 2)], [draftCall gmodel q (collect fetch n hits [] []).1,
        verifyCall gmodel a],
       Except.ok ⟨b, (collect fetch n hits [] []).2, some verifNote⟩⟩ := by
    cases hits with
    | nil => exact absurd rfl hne
    | cons r rs =>
      unfold process_query
      rw [hs]
      have hpe : ¬ ((collect fetch n (r :: rs) [] []).1.isEmpty = true) := by
        intro hh
        exact hne (List.isEmpty_iff.mp hh)
      simp only [Bool.not_eq_true] at hpe
      simp [hpe, h1, h2]
  rw [hcalls]
  exact ⟨rfl, rfl, ⟨verifyBefore, verifyAfter, rfl⟩, rfl⟩

/-- Witness for C9: one good hit, a model answering both passes; the
two calls and the final answer are observed. -/
theorem two_pass_synthesis_witness :
    (process_query (fun _ _ => Except.ok
        [⟨some "https://example.com/paris", "Paris", "about"⟩])
      (fun _ => FetchOutcome.ok
        "A sufficiently long and perfectly ordinary page text about the city of Paris and its history.")
      (fun c => if c.system = sysVerify then Except.ok "final answer"
        else Except.ok "draft answer")
      "m" "capital of France" 3).llmCalls.length = 2
    ∧ (∃ pre post, (verifyCall "m" "draft answer").user =
        pre ++ "draft answer" ++ post) := by
  have h := two_pass_synthesis (fun _ _ => Except.ok
      [⟨some "https://example.com/paris", "Paris", "about"⟩])
    (fun _ => FetchOutcome.ok
      "A sufficiently long and perfectly ordinary page text about the city of Paris and its history.")
    (fun c => if c.system = sysVerify then Except.ok "final answer"
      else Except.ok "draft answer")
    "m" "capital of France" 3
    [⟨some "https://example.com/paris", "Paris", "about"⟩]
    "draft answer" "final answer" rfl (by decide) rfl rfl
  exact ⟨h.2.1, h.2.2.1⟩

/-! ## Claim C1 -/

/-- C1 evaluated at a concrete submission: because `create_query`
awaits `task_manager.add_task` — which awaits the worker coroutine to
completion — the snapshot it returns is taken after the worker has
finished, so its status is the terminal `"completed"`, not
`"initiated"`. -/
theorem create_query_blocking_evaluation :
    (create_query (fun _ _ => Except.ok []) (fun _ => FetchOutcome.err "x")
      (fun _ => Except.error "y") "m" "id1" "capital of France" 3 0 5 1 2
      (fun _ => none)).2.status = "completed"
    ∧ (create_query (fun _ _ => Except.ok []) (fun _ => FetchOutcome.err "x")
      (fun _ => Except.error "y") "m" "id1" "capital of France" 3 0 5 1 2
      (fun _ => none)).2.status ≠ "initiated" := by
  constructor
  · rfl
  · decide

/-! ## Claim C3 -/

/-- A read with a task view the system can produce never changes the
record. -/
theorem validRead_applyEv {ev : Ev} (h : validReadEv ev = true) (j : Job) :
    applyEv j ev = j := by
  cases ev with
  | read tv =>
    match tv with
    | none => rfl
    | some ⟨true, none⟩ => rfl
    | some ⟨false, none⟩ => rfl
    | some ⟨d, some e⟩ => simp [validReadEv] at h
  | searching t => simp [validReadEv] at h
  | completed a s p t => simp [validReadEv] at h
  | failed m t => simp [validReadEv] at h

/-- Folding any number of valid reads is the identity. -/
theorem foldl_validReads (l : List Ev) (h : ∀ ev ∈ l, validReadEv ev = true)
    (j : Job) : l.foldl applyEv j = j := by
  induction l generalizing j with
  | nil => rfl
  | cons e rest ih =>
    rw [List.foldl_cons, validRead_applyEv (h e (List.mem_cons_self e rest)) j]
    exact ih (fun ev hev => h ev (List.mem_cons_of_mem e hev)) j

/-- A valid read is not a terminal write. -/
theorem validRead_not_terminal {ev : Ev} (h : validReadEv ev = true) :
    terminalEv ev = false := by
  cases ev with
  | read tv => rfl
  | searching t => rfl
  | completed a s p t => simp [validReadEv] at h
  | failed m t => simp [validReadEv] at h

/-- Folding valid reads and `searching` writes keeps the status at its
old value or `"searching"`. -/
theorem foldl_pre_events (l : List Ev)
    (h : ∀ ev ∈ l, validReadEv ev = true ∨ ∃ t, ev = Ev.searching t)
    (j : Job) :
    (l.foldl applyEv j).status = j.status
    ∨ (l.foldl applyEv j).status = "searching" := by
  induction l generalizing j with
  | nil => exact Or.inl rfl
  | cons e rest ih =>
    rcases h e (List.mem_cons_self e rest) with hv | ⟨t, rfl⟩
    · rw [List.foldl_cons, validRead_applyEv hv j]
      exact ih (fun ev hev => h ev (List.mem_cons_of_mem e hev)) j
    · rw [List.foldl_cons]
      rcases ih (fun ev hev => h ev (List.mem_cons_of_mem _ hev))
          (applyEv j (Ev.searching t)) with h1 | h1
      · exact Or.inr h1
      · exact Or.inr h1

/-- C3: over any interleaving of the worker's three store writes with
concurrent status reads (whose task views carry no exception, since the
embedded worker function returns normally on every input): a status
read never mutates the store; no interleaved read changes the record;
exactly one terminal write occurs; the status is not terminal before
the terminal write; the final record is exactly
create-searching-terminal and is stable under any further reads; and
`answer`+`sources` versus `error` are mutually exclusive. -/
theorem job_lifecycle_invariants
    (qid q : String) (t0 t1 t2 ptime : Nat) (outcome : Except String PQResult)
    (r1 r2 r3 : List Ev)
    (hr : ∀ ev ∈ r1 ++ r2 ++ r3, validReadEv ev = true) :
    (∀ (tv : Option TaskView), validReadEv (Ev.read tv) = true →
      ∀ (store : Store) (qid' : String) (store' : Store) (j : Job),
        get_query_result store qid' tv = Except.ok (store', j) →
        ∀ k, store' k = store k)
    ∧ (∀ ev ∈ r1 ++ r2 ++ r3, ∀ j : Job, applyEv j ev = j)
    ∧ ((r1 ++ [Ev.searching t1] ++ r2 ++ [termEv outcome ptime t2] ++ r3).filter
        terminalEv).length = 1
    ∧ (∀ p s, r1 ++ [Ev.searching t1] ++ r2 = p ++ s →
        terminalStatus ((p.foldl applyEv (initialJob qid q t0)).status) = false)
    ∧ ((r1 ++ [Ev.searching t1] ++ r2 ++ [termEv outcome ptime t2] ++ r3).foldl
          applyEv (initialJob qid q t0) =
        applyEv (updateSearching t1 (initialJob qid q t0)) (termEv outcome ptime t2))
    ∧ terminalStatus (((r1 ++ [Ev.searching t1] ++ r2 ++ [termEv outcome ptime t2]
          ++ r3).foldl applyEv (initialJob qid q t0)).status) = true
    ∧ (∀ l' : List Ev, (∀ ev ∈ l', validReadEv ev = true) →
        l'.foldl applyEv ((r1 ++ [Ev.searching t1] ++ r2 ++ [termEv outcome ptime t2]
          ++ r3).foldl applyEv (initialJob qid q t0)) =
        (r1 ++ [Ev.searching t1] ++ r2 ++ [termEv outcome ptime t2] ++ r3).foldl
          applyEv (initialJob qid q t0))
    ∧ ((∃ a s, ((r1 ++ [Ev.searching t1] ++ r2 ++ [termEv outcome ptime t2]
          ++ r3).foldl applyEv (initialJob qid q t0)).answer = some a
        ∧ ((r1 ++ [Ev.searching t1] ++ r2 ++ [termEv outcome ptime t2]
          ++ r3).foldl applyEv (initialJob qid q t0)).sources = some s
        ∧ ((r1 ++ [Ev.searching t1] ++ r2 ++ [termEv outcome ptime t2]
          ++ r3).foldl applyEv (initialJob qid q t0)).error = none)
      ∨ (∃ e, ((r1 ++ [Ev.searching t1] ++ r2 ++ [termEv outcome ptime t2]
          ++ r3).foldl applyEv (initialJob qid q t0)).error = some e
        ∧ ((r1 ++ [Ev.searching t1] ++ r2 ++ [termEv outcome ptime t2]
          ++ r3).foldl applyEv (initialJob qid q t0)).answer = none
        ∧ ((r1 ++ [Ev.searching t1] ++ r2 ++ [termEv outcome ptime t2]
          ++ r3).foldl applyEv (initialJob qid q t0)).sources = none)) := by
  have hr1 : ∀ ev ∈ r1, validReadEv ev = true := fun ev hev =>
    hr ev (by simp [hev])
  have hr2 : ∀ ev ∈ r2, validReadEv ev = true := fun ev hev =>
    hr ev (by simp [hev])
  have hr3 : ∀ ev ∈ r3, validReadEv ev = true := fun ev hev =>
    hr ev (by simp [hev])
  have hfold : (r1 ++ [Ev.searching t1] ++ r2 ++ [termEv outcome ptime t2]
      ++ r3).foldl applyEv (initialJob qid q t0) =
      applyEv (updateSearching t1 (initialJob qid q t0)) (termEv outcome ptime t2) := by
    rw [List.foldl_append, List.foldl_append, List.foldl_append, List.foldl_append]
    rw [foldl_validReads r1 hr1]
    rw [show ([Ev.searching t1]).foldl applyEv (initialJob qid q t0) =
      updateSearching t1 (initialJob qid q t0) from rfl]
    rw [foldl_validReads r2 hr2]
    rw [foldl_validReads r3 hr3]
    rfl
  refine ⟨?_, ?_, ?_, ?_, hfold, ?_, ?_, ?_⟩
  · intro tv hv store qid' store' j hok k
    unfold get_query_result at hok
    cases hres : store qid' with
    | none => rw [hres] at hok; exact absurd hok (by simp)
    | some result =>
      rw [hres] at hok
      have hmut : readMut tv result = result := validRead_applyEv hv result
      simp only [hmut, Except.ok.injEq, Prod.mk.injEq] at hok
      rw [← hok.1]
      unfold storeInsert
      by_cases hk : k = qid'
      · rw [if_pos hk, hk, hres]
      · rw [if_neg hk]
  · intro ev hev j
    exact validRead_applyEv (hr ev hev) j
  · have hf1 : r1.filter terminalEv = [] :=
      List.filter_eq_nil_iff.mpr fun ev hev => by
        rw [validRead_not_terminal (hr1 ev hev)]; exact Bool.false_ne_true
    have hf2 : r2.filter terminalEv = [] :=
      List.filter_eq_nil_iff.mpr fun ev hev => by
        rw [validRead_not_terminal (hr2 ev hev)]; exact Bool.false_ne_true
    have hf3 : r3.filter terminalEv = [] :=
      List.filter_eq_nil_iff.mpr fun ev hev => by
        rw [validRead_not_terminal (hr3 ev hev)]; exact Bool.false_ne_true
    have hterm : terminalEv (termEv outcome ptime t2) = true := by
      cases outcome <;> rfl
    have hsearch : terminalEv (Ev.searching t1) = false := rfl
    simp [List.filter_append, List.filter_cons, hf1, hf2, hf3, hterm, hsearch]
  · intro p s hps
    have hmem : ∀ ev ∈ p, validReadEv ev = true ∨ ∃ t, ev = Ev.searching t := by
      intro ev hev
      have hin : ev ∈ r1 ++ [Ev.searching t1] ++ r2 := by
        rw [hps]
        exact List.mem_append_left s hev
      rcases List.mem_append.mp hin with hin' | hin2
      · rcases List.mem_append.mp hin' with hin1 | hins
        · exact Or.inl (hr1 ev hin1)
        · exact Or.inr ⟨t1, List.mem_singleton.mp hins⟩
      · exact Or.inl (hr2 ev hin2)
    rcases foldl_pre_events p hmem (initialJob qid q t0) with h1 | h1 <;> rw [h1]
    · rfl
    · rfl
  · rw [hfold]
    cases outcome <;> rfl
  · intro l' hl'
    exact foldl_validReads l' hl' _
  · rw [hfold]
    cases outcome with
    | ok r => exact Or.inl ⟨r.answer, r.sources, rfl, rfl, rfl⟩
    | error e => exact Or.inr ⟨e, rfl, rfl, rfl⟩

/-- Witness for C3: a concrete interleaving with one read in each
window; exactly one terminal write, and the final status is
terminal. -/
theorem job_lifecycle_invariants_witness :
    (([Ev.read none] ++ [Ev.searching 1] ++ [Ev.read (some ⟨false, none⟩)]
        ++ [termEv (Except.ok ⟨"ans", [], none⟩) 5 2]
        ++ [Ev.read (some ⟨true, none⟩)]).filter terminalEv).length = 1
    ∧ terminalStatus ((([Ev.read none] ++ [Ev.searching 1]
        ++ [Ev.read (some ⟨false, none⟩)]
        ++ [termEv (Except.ok ⟨"ans", [], none⟩) 5 2]
        ++ [Ev.read (some ⟨true, none⟩)]).foldl applyEv
          (initialJob "id1" "q" 0)).status) = true := by
  have h := job_lifecycle_invariants "id1" "q" 0 1 2 5
    (Except.ok ⟨"ans", [], none⟩) [Ev.read none] [Ev.read (some ⟨false, none⟩)]
    [Ev.read (some ⟨true, none⟩)] (by decide)
  exact ⟨h.2.2.1, h.2.2.2.2.2.1⟩

/-! ## Claim C10 -/

/-- C10: the `/status` summary maps exactly the statuses present in the
store; every mapped count is positive (absent statuses would count 0
and are not keys); and the counts over the mapped statuses sum to the
reported total job count. -/
theorem status_summary_spec (jobs : List Job) (active : Nat) (s : String) :
    (s ∈ (get_system_status jobs active).byStatusKeys ↔ ∃ j ∈ jobs, j.status = s)
    ∧ (s ∈ (get_system_status jobs active).byStatusKeys →
        0 < (get_system_status jobs active).byStatusCount s)
    ∧ (s ∉ (get_system_status jobs active).byStatusKeys →
        (get_system_status jobs active).byStatusCount s = 0)
    ∧ (∑ t in (get_system_status jobs active).byStatusKeys,
        (get_system_status jobs active).byStatusCount t =
        (get_system_status jobs active).total_queries) := by
  have hkeys : (get_system_status jobs active).byStatusKeys =
      (jobs.map Job.status).toFinset := rfl
  have hcnt : ∀ t, (get_system_status jobs active).byStatusCount t =
      (jobs.filter (fun j => j.status = t)).length := fun _ => rfl
  have hmem : ∀ t : String, t ∈ (jobs.map Job.status).toFinset ↔
      ∃ j ∈ jobs, j.status = t := by
    intro t
    simp [List.mem_toFinset]
  refine ⟨?_, ?_, ?_, ?_⟩
  · rw [hkeys]
    exact hmem s
  · intro hs
    obtain ⟨j, hj, hjs⟩ := (hmem s).mp (hkeys ▸ hs)
    rw [hcnt]
    have hjf : j ∈ jobs.filter (fun j => j.status = s) := by
      rw [List.mem_filter]
      exact ⟨hj, by simp [hjs]⟩
    exact List.length_pos.mpr (fun hnil => by rw [hnil] at hjf; cases hjf)
  · intro hs
    rw [hcnt]
    have hnone : ∀ j ∈ jobs, ¬ j.status = s := by
      intro j hj hjs
      exact hs (hkeys ▸ (hmem s).mpr ⟨j, hj, hjs⟩)
    rw [List.filter_eq_nil_iff.mpr (fun j hj => by simp [hnone j hj])]
    rfl
  · have hcount : ∀ t, (jobs.filter (fun j => j.status = t)).length =
        (jobs.map Job.status).count t := by
      intro t
      rw [List.count_eq_countP, List.countP_map,
        ← List.countP_eq_length_filter]
      refine List.countP_congr (fun j _ => ?_)
      simp [Function.comp, Bool.beq_eq_decide_eq]
    rw [hkeys]
    have htot : (get_system_status jobs active).total_queries =
        jobs.length := rfl
    rw [htot]
    calc ∑ t in (jobs.map Job.status).toFinset,
          (get_system_status jobs active).byStatusCount t
        = ∑ t in (jobs.map Job.status).toFinset,
          (jobs.map Job.status).count t := by
          refine Finset.sum_congr rfl (fun t _ => ?_)
          rw [hcnt, hcount]
      _ = jobs.length := by
          simp


/-- Witness for C10 at a concrete store: the summary over two
`completed` jobs and one `failed` job. -/
theorem status_summary_spec_witness :
    0 < (get_system_status
        [initialJob "a" "q1" 0,
         updateCompleted "ans" [] 1 2 (initialJob "b" "q2" 0),
         updateFailed "boom" 3 (initialJob "c" "q3" 0)] 0).byStatusCount "failed"
    ∧ (∑ t in (get_system_status
        [initialJob "a" "q1" 0,
         updateCompleted "ans" [] 1 2 (initialJob "b" "q2" 0),
         updateFailed "boom" 3 (initialJob "c" "q3" 0)] 0).byStatusKeys,
        (get_system_status
        [initialJob "a" "q1" 0,
         updateCompleted "ans" [] 1 2 (initialJob "b" "q2" 0),
         updateFailed "boom" 3 (initialJob "c" "q3" 0)] 0).byStatusCount t) = 3 := by
  have h := status_summary_spec
    [initialJob "a" "q1" 0,
     updateCompleted "ans" [] 1 2 (initialJob "b" "q2" 0),
     updateFailed "boom" 3 (initialJob "c" "q3" 0)] 0 "failed"
  exact ⟨h.2.1 ((h.1).mpr
    ⟨updateFailed "boom" 3 (initialJob "c" "q3" 0), by simp, rfl⟩), h.2.2.2⟩

end Goleki
